import Mathlib

set_option autoImplicit false

/-
Verification of the toda fault-injection engine against its design notes.

The development shallowly embeds the relevant parts of the source:
  * `src/injector/multi_injector.rs` — the injector chain (`MultiInjector`),
  * `src/main.rs`                    — the `inject` / `resume` / `main` control flow
                                       and the signal lifecycle,
  * `src/hookfs/async_fs.rs`         — the FUSE request dispatcher.

Trait objects become records of functions, `Result` becomes `Except`,
`&mut` parameters become explicit state passing, and the effectful
control flow of `main.rs` becomes a trace of abstract steps driven by an
environment record that fixes the outcome of each fallible call.
-/

namespace Toda

/-- Errno values carried by injector errors (`hookfs::Error`), kept abstract as `Nat`. -/
abbrev Errno := Nat

/-- Shallow embedding of a `Box<dyn Injector>` trait object from
`src/injector/mod.rs` as used by `multi_injector.rs`: a record of the three
trait methods.  `inject_reply` takes `&mut Reply`, so it is embedded as a
state-passing function returning both the `Result<()>` and the final reply
state; mutations made before an `Err` persist, exactly as with `&mut`. -/
structure Injector (M P R A : Type) where
  inject : M → P → Except Errno Unit
  inject_reply : M → P → R → Except Errno Unit × R
  inject_attr : A → P → A

/-- Embedding of `MultiInjector { injectors: Vec<Box<dyn Injector>> }`. -/
structure MultiInjector (M P R A : Type) where
  injectors : List (Injector M P R A)

/-- Embedding of the loop body of `MultiInjector::inject`:
`for injector in self.injectors.iter() { injector.inject(method, path).await? } Ok(())`.
The `?` operator returns the first `Err` immediately. -/
def runInject {M P R A : Type} : List (Injector M P R A) → M → P → Except Errno Unit
  | [], _, _ => .ok ()
  | i :: rest, m, p =>
    match i.inject m p with
    | .ok _ => runInject rest m p
    | .error e => .error e

def MultiInjector.inject {M P R A : Type} (mi : MultiInjector M P R A) (m : M) (p : P) :
    Except Errno Unit :=
  runInject mi.injectors m p

/-- Embedding of the loop body of `MultiInjector::inject_reply`:
`for injector in self.injectors.iter() { injector.inject_reply(method, path, reply)? } Ok(())`.
The reply state is threaded through; the `?` operator stops at the first `Err`,
keeping the mutations applied so far. -/
def runInjectReply {M P R A : Type} :
    List (Injector M P R A) → M → P → R → Except Errno Unit × R
  | [], _, _, r => (.ok (), r)
  | i :: rest, m, p, r =>
    match i.inject_reply m p r with
    | (.ok _, r1) => runInjectReply rest m p r1
    | (.error e, r1) => (.error e, r1)

def MultiInjector.inject_reply {M P R A : Type} (mi : MultiInjector M P R A)
    (m : M) (p : P) (r : R) : Except Errno Unit × R :=
  runInjectReply mi.injectors m p r

/-- Embedding of the loop body of `MultiInjector::inject_attr`:
`for injector in self.injectors.iter() { injector.inject_attr(attr, path) }`. -/
def runInjectAttr {M P R A : Type} : List (Injector M P R A) → A → P → A
  | [], a, _ => a
  | i :: rest, a, p => runInjectAttr rest (i.inject_attr a p) p

def MultiInjector.inject_attr {M P R A : Type} (mi : MultiInjector M P R A)
    (a : A) (p : P) : A :=
  runInjectAttr mi.injectors a p

/-- The reply obtained by letting EVERY element of the list mutate the reply in
order, ignoring errors.  This is the accumulation the spec describes for
`inject_reply`; the theorems compare the embedded code against it. -/
def replyFold {M P R A : Type} (l : List (Injector M P R A)) (m : M) (p : P) (r : R) : R :=
  l.foldl (fun acc i => (i.inject_reply m p acc).2) r

/-- The `MultiInjector` with an empty injector list, as produced by
`MultiInjector::build(vec![])`. -/
def emptyMultiInjector (M P R A : Type) : MultiInjector M P R A := ⟨[]⟩

/-- Embedding of `InjectorConfig` (`src/injector/injector_config.rs` is not under
`src/`, but `multi_injector.rs` only matches on its three variants, so the
variant payloads stay abstract). -/
inductive InjectorConfig (FC LC AC : Type) where
  | fault (conf : FC)
  | latency (conf : LC)
  | attrOverride (conf : AC)

/-- The injector value built for one configuration record, tagged by which
concrete injector type (`FaultInjector`, `LatencyInjector`,
`AttrOverrideInjector`) was built. -/
inductive BuiltInjector (FI LI AI : Type) where
  | fault (inj : FI)
  | latency (inj : LI)
  | attrOverride (inj : AI)

/-- The three injector kinds, used to compare a configuration record with the
injector built from it. -/
inductive InjectorKind where
  | fault
  | latency
  | attrOverride
deriving DecidableEq

def InjectorConfig.kind {FC LC AC : Type} : InjectorConfig FC LC AC → InjectorKind
  | .fault _ => .fault
  | .latency _ => .latency
  | .attrOverride _ => .attrOverride

def BuiltInjector.kind {FI LI AI : Type} : BuiltInjector FI LI AI → InjectorKind
  | .fault _ => .fault
  | .latency _ => .latency
  | .attrOverride _ => .attrOverride

/-- Embedding of the `match injector { ... }` in the loop body of
`MultiInjector::build`: each variant is handed to the corresponding
injector's `build` (`FaultInjector::build`, `LatencyInjector::build`,
`AttrOverrideInjector::build` live outside `src/`, so they are parameters),
and a `?` failure propagates. -/
def buildOne {E FC LC AC FI LI AI : Type}
    (buildFault : FC → Except E FI) (buildLatency : LC → Except E LI)
    (buildAttrOverride : AC → Except E AI) :
    InjectorConfig FC LC AC → Except E (BuiltInjector FI LI AI)
  | .fault c => (buildFault c).map .fault
  | .latency c => (buildLatency c).map .latency
  | .attrOverride c => (buildAttrOverride c).map .attrOverride

/-- Embedding of `MultiInjector::build`: walk the configuration records in
order, build one injector per record, push it; the first build failure aborts
the whole build via `?`. -/
def MultiInjector.build {E FC LC AC FI LI AI : Type}
    (buildFault : FC → Except E FI) (buildLatency : LC → Except E LI)
    (buildAttrOverride : AC → Except E AI) :
    List (InjectorConfig FC LC AC) → Except E (List (BuiltInjector FI LI AI))
  | [] => .ok []
  | c :: rest =>
    match buildOne buildFault buildLatency buildAttrOverride c with
    | .error e => .error e
    | .ok i =>
      match MultiInjector.build buildFault buildLatency buildAttrOverride rest with
      | .error e => .error e
      | .ok restBuilt => .ok (i :: restBuilt)

/-- A concrete injector whose `inject_reply` fails with errno 5 and leaves the
reply unchanged.  Used to exercise the chain on concrete inputs. -/
def errReplyInjector : Injector Unit Unit Nat Unit :=
  { inject := fun _ _ => .ok ()
    inject_reply := fun _ _ r => (.error 5, r)
    inject_attr := fun a _ => a }

/-- A concrete injector whose `inject_reply` succeeds and increments the reply. -/
def incReplyInjector : Injector Unit Unit Nat Unit :=
  { inject := fun _ _ => .ok ()
    inject_reply := fun _ _ r => (.ok (), r + 1)
    inject_attr := fun a _ => a }

/-- A chain whose first element fails `inject_reply` and whose second element
would mutate the reply if it were invoked. -/
def errThenIncChain : MultiInjector Unit Unit Nat Unit :=
  ⟨[errReplyInjector, incReplyInjector]⟩

/-- A concrete injector whose `inject` fails with errno 13. -/
def errInjectInjector : Injector Unit Unit Nat Unit :=
  { inject := fun _ _ => .error 13
    inject_reply := fun _ _ r => (.ok (), r)
    inject_attr := fun a _ => a }

/-- A concrete injector whose `inject` succeeds. -/
def okInjectInjector : Injector Unit Unit Nat Unit :=
  { inject := fun _ _ => .ok ()
    inject_reply := fun _ _ r => (.ok (), r)
    inject_attr := fun a _ => a }

/-- Error cases of `MountInjectionGuard::recover_mount` during recovery; the
unmount can fail with `EBUSY` or any other error. -/
inductive UmountError where
  | EBUSY
  | other
deriving DecidableEq

/-- Embedding of the retry loop in `resume` (`src/main.rs`): each iteration
re-enters the namespace, runs the replacer, and calls `recover_mount`; on
`Err` it logs and `continue`s, on `Ok` it `break`s.  The outcomes of the
successive `recover_mount` calls are abstracted as `recover : Nat → Except
UmountError Unit` (attempt number to outcome); `fuel` bounds how many
iterations we observe, so that (non-)termination of the unbounded Rust
`loop` becomes expressible: the loop terminates iff some fuel suffices.
The returned value is the index of the first successful attempt. -/
def resumeLoopFuel (recover : Nat → Except UmountError Unit) :
    Nat → Nat → Option Nat
  | 0, _ => none
  | fuel + 1, attempt =>
    match recover attempt with
    | .ok _ => some attempt
    | .error _ => resumeLoopFuel recover fuel (attempt + 1)

/-- Termination of the `resume` retry loop on a given sequence of
`recover_mount` outcomes: some finite number of iterations reaches `break`. -/
def resumeTerminates (recover : Nat → Except UmountError Unit) : Prop :=
  ∃ fuel, (resumeLoopFuel recover fuel 0).isSome

/-- Outcome sequence on which every `recover_mount` attempt fails with `EBUSY`. -/
def recoverAlwaysBusy : Nat → Except UmountError Unit :=
  fun _ => .error .EBUSY

/-- Outcome sequence failing with `EBUSY` on attempts 0 and 1 and succeeding
on attempt 2. -/
def recoverBusyThenOk : Nat → Except UmountError Unit :=
  fun n => if n < 2 then .error .EBUSY else .ok ()

/-- Opaque error payload for the `anyhow::Result` errors propagated through
`inject` and `main`, kept abstract as `Nat`. -/
abbrev InjectError := Nat

/-- The signals whose disposition `main` could touch. -/
inductive SigName where
  | SIGINT
  | SIGTERM
  | SIGCHLD
deriving DecidableEq

/-- Signal dispositions installed through `nix::sys::signal::signal`. -/
inductive SigDisposition where
  | handlerRecovery
  | sigIgn
deriving DecidableEq

/-- Observable steps of `main` and `inject` (`src/main.rs`), in the order the
source performs them. -/
inductive Step where
  | mlockallStep
  | createPipe
  | storePipeWriter
  | setSignal (s : SigName) (d : SigDisposition)
  | parseOptions
  | startLogger
  | parseConfig
  | readFuseDev
  | spawnNamespaceTask
  | waitBeforeMount
  | createInjection
  | mountStep
  | joinNamespaceTask
  | enableInjection
  | readSignalPipe
  | runResume
deriving DecidableEq

/-- Environment fixing the outcome of each fallible call `inject` makes, in
source order: `serde_json::from_reader(stdin)`, `read_fuse_dev_t`,
`with_mnt_pid_namespace`, `before_mount_waiter.wait()`,
`MountInjector::create_injection`, `injection.mount`.  Payloads are
irrelevant to control flow and are `Unit`. -/
structure InjectEnv where
  stdin_config : Except InjectError Unit
  read_fuse_dev : Except InjectError Unit
  with_mnt_pid_namespace : Except InjectError Unit
  before_mount_wait : Except InjectError Unit
  create_injection : Except InjectError Unit
  mount : Except InjectError Unit

/-- Embedding of `fn inject` (`src/main.rs`): the config is parsed from stdin
first; every subsequent fallible call is sequenced with `?`, so the first
`Err` aborts with that error.  The second component is the trace of steps
actually performed (a step appears when the call is made, also when it is the
one that fails). -/
def injectRun (env : InjectEnv) : Except InjectError Unit × List Step :=
  match env.stdin_config with
  | .error e => (.error e, [.parseConfig])
  | .ok _ =>
    match env.read_fuse_dev with
    | .error e => (.error e, [.parseConfig, .readFuseDev])
    | .ok _ =>
      match env.with_mnt_pid_namespace with
      | .error e => (.error e, [.parseConfig, .readFuseDev, .spawnNamespaceTask])
      | .ok _ =>
        match env.before_mount_wait with
        | .error e =>
          (.error e, [.parseConfig, .readFuseDev, .spawnNamespaceTask, .waitBeforeMount])
        | .ok _ =>
          match env.create_injection with
          | .error e =>
            (.error e,
              [.parseConfig, .readFuseDev, .spawnNamespaceTask, .waitBeforeMount,
                .createInjection])
          | .ok _ =>
            match env.mount with
            | .error e =>
              (.error e,
                [.parseConfig, .readFuseDev, .spawnNamespaceTask, .waitBeforeMount,
                  .createInjection, .mountStep])
            | .ok _ =>
              (.ok (),
                [.parseConfig, .readFuseDev, .spawnNamespaceTask, .waitBeforeMount,
                  .createInjection, .mountStep, .joinNamespaceTask, .enableInjection])

/-- The steps `main` performs before calling `inject`, in source order:
`mlockall`, `pipe()`, the store into `SIGNAL_PIPE_WRITER`, the two `signal`
calls (the `signal(SIGCHLD, SigIgn)` line is commented out in the source and
therefore absent), `Options::from_args`, and the logger start. -/
def mainPrefixSteps : List Step :=
  [.mlockallStep, .createPipe, .storePipeWriter,
    .setSignal .SIGINT .handlerRecovery, .setSignal .SIGTERM .handlerRecovery,
    .parseOptions, .startLogger]

/-- Embedding of `fn main` (`src/main.rs`): the prefix steps, then `inject`;
when `inject` fails its error propagates through `?` and nothing further
runs; when it succeeds, `main` blocks reading the signal pipe and then runs
`resume`. -/
def mainTrace (env : InjectEnv) : List Step :=
  match injectRun env with
  | (.ok _, tr) => mainPrefixSteps ++ tr ++ [.readSignalPipe, .runResume]
  | (.error _, tr) => mainPrefixSteps ++ tr

/-- The result `main` returns: an `inject` error propagates via `?`. -/
def mainResult (env : InjectEnv) : Except InjectError Unit :=
  match (injectRun env).1 with
  | .error e => .error e
  | .ok _ => .ok ()

/-- Process exit code: 0 when `main` returns `Ok`, non-zero otherwise. -/
def processExitCode (env : InjectEnv) : Nat :=
  match mainResult env with
  | .ok _ => 0
  | .error _ => 1

/-- The byte string `const SIGNAL_MSG: [u8; 6] = *b"SIGNAL"` from `src/main.rs`. -/
def SIGNAL_MSG : List Nat := [83, 73, 71, 78, 65, 76]

/-- What a write to the self-pipe carries. -/
inductive PipeEvent where
  | write (bytes : List Nat)
deriving DecidableEq

/-- Embedding of `extern "C" fn signal_handler`: a single write of
`SIGNAL_MSG` into the pipe write end stored in `SIGNAL_PIPE_WRITER`. -/
def signal_handler : List PipeEvent := [.write SIGNAL_MSG]

/-- The environment in which every fallible call of `inject` succeeds. -/
def envAllOk : InjectEnv := ⟨.ok (), .ok (), .ok (), .ok (), .ok (), .ok ()⟩

/-- The trace of a run of `main` in which every fallible call succeeds. -/
def mainTraceAllOk : List Step :=
  mainPrefixSteps ++
    [.parseConfig, .readFuseDev, .spawnNamespaceTask, .waitBeforeMount,
      .createInjection, .mountStep, .joinNamespaceTask, .enableInjection,
      .readSignalPipe, .runResume]

/-- The environment in which parsing the injector config from stdin fails
with error 7. -/
def envParseFail : InjectEnv := ⟨.error 7, .ok (), .ok (), .ok (), .ok (), .ok ()⟩

/-- Modelled from the spec: `utils::encode_path` is not under `src/`.  Per the
spec, the recovery mapping's target is "an encoded sibling of the same name
(with a suffix deterministic in the original)", derived deterministically
from the original path; the model appends a fixed marker suffix.  Like the
source function it returns the pair (original path, encoded sibling path)
inside a `Result`. -/
def encode_path (p : String) : Except InjectError (String × String) :=
  .ok (p, p ++ ".__toda__")

/-- Embedding of the replacer preparation in the `inject` namespace closure
(`src/main.rs`): canonicalize the path (fallible, abstracted as a function
argument), then `replacer.prepare(&ptrace_manager, &path, &path)` — the
identity mapping.  The result is the `(original, new)` path pair handed to
`UnionReplacer::prepare`. -/
def injectReplacerArgs (canonicalize : String → Except InjectError String)
    (path : String) : Except InjectError (String × String) :=
  match canonicalize path with
  | .error e => .error e
  | .ok p => .ok (p, p)

/-- Embedding of the replacer preparation in the `resume` namespace closure
(`src/main.rs`): canonicalize the path, compute `(_, new_path) =
encode_path(&path)?`, then `replacer.prepare(&ptrace_manager, &path,
&new_path)`. -/
def resumeReplacerArgs (canonicalize : String → Except InjectError String)
    (path : String) : Except InjectError (String × String) :=
  match canonicalize path with
  | .error e => .error e
  | .ok p =>
    match encode_path p with
    | .error e => .error e
    | .ok (_, newPath) => .ok (p, newPath)

/-- The FUSE operations of the `Filesystem` impl for `AsyncFileSystem`
(`src/hookfs/async_fs.rs`), in source order. -/
inductive FuseOp where
  | init
  | destroy
  | lookup
  | forget
  | getattr
  | setattr
  | readlink
  | mknod
  | mkdir
  | unlink
  | rmdir
  | symlink
  | rename
  | link
  | «open»
  | read
  | write
  | flush
  | release
  | fsync
  | opendir
  | readdir
  | releasedir
  | fsyncdir
  | statfs
  | setxattr
  | getxattr
  | listxattr
  | removexattr
  | access
  | create
  | getlk
  | setlk
  | bmap
deriving DecidableEq, Fintype

/-- How the dispatcher schedules each operation:
`spawnReplied` — via `AsyncFileSystem::spawn(reply, f)`, whose task sends the
future's result to the sink itself; `spawnSinkPassed` — via
`thread_pool.spawn` with the reply sink moved into the impl call;
`spawnNoSink` — via `thread_pool.spawn` with no reply sink at all;
`direct` — handled inline without spawning a task. -/
inductive DispatchKind where
  | spawnReplied
  | spawnSinkPassed
  | spawnNoSink
  | direct
deriving DecidableEq

/-- How each `Filesystem` method of `src/hookfs/async_fs.rs` schedules its
work, read off the source method by method. -/
def dispatchKind : FuseOp → DispatchKind
  | .init => .direct
  | .destroy => .direct
  | .lookup => .spawnReplied
  | .forget => .spawnNoSink
  | .getattr => .spawnSinkPassed
  | .setattr => .spawnSinkPassed
  | .readlink => .spawnSinkPassed
  | .mknod => .spawnReplied
  | .mkdir => .spawnReplied
  | .unlink => .spawnReplied
  | .rmdir => .spawnReplied
  | .symlink => .spawnReplied
  | .rename => .spawnSinkPassed
  | .link => .spawnReplied
  | .«open» => .spawnReplied
  | .read => .spawnSinkPassed
  | .write => .spawnSinkPassed
  | .flush => .spawnReplied
  | .release => .spawnSinkPassed
  | .fsync => .spawnReplied
  | .opendir => .spawnReplied
  | .readdir => .spawnSinkPassed
  | .releasedir => .spawnReplied
  | .fsyncdir => .spawnReplied
  | .statfs => .spawnSinkPassed
  | .setxattr => .spawnSinkPassed
  | .getxattr => .spawnSinkPassed
  | .listxattr => .spawnSinkPassed
  | .removexattr => .spawnReplied
  | .access => .spawnReplied
  | .create => .spawnSinkPassed
  | .getlk => .spawnSinkPassed
  | .setlk => .spawnReplied
  | .bmap => .spawnSinkPassed

/-- Whether the dispatcher spawns a task for the operation. -/
def spawnsTask (op : FuseOp) : Bool :=
  match dispatchKind op with
  | .direct => false
  | _ => true

/-- The number of reply sinks in each `Filesystem` method's signature in
`src/hookfs/async_fs.rs`: every method has exactly one `reply` parameter
except `forget`, `init` and `destroy`, which have none. -/
def sinkCount : FuseOp → Nat
  | .forget => 0
  | .init => 0
  | .destroy => 0
  | _ => 1

/-- Events a spawned dispatcher task sends to its reply sink. -/
inductive ReplyEvent (V : Type) where
  | reply (result : Except Errno V)

/-- Embedding of the task body of `AsyncFileSystem::spawn`:
`let result = f.await; reply.reply(result);` — the single-shot sink receives
exactly one reply, carrying the future's result. -/
def AsyncFileSystem.spawn {V : Type} (f : Except Errno V) : List (ReplyEvent V) :=
  [ReplyEvent.reply f]

/-- A concrete `FaultInjector::build` stand-in used to evaluate
`MultiInjector::build` on concrete inputs. -/
def wbf : Nat → Except Nat Nat := fun n => .ok (n + 100)

/-- A concrete `LatencyInjector::build` stand-in. -/
def wbl : Nat → Except Nat Nat := fun n => .ok (n + 200)

/-- A concrete `AttrOverrideInjector::build` stand-in that always fails with
error 9. -/
def wba : Nat → Except Nat Nat := fun _ => .error 9

/-- A prefix of injectors that all succeed on `inject` contributes nothing to
`MultiInjector::inject`: the loop just walks past them. -/
theorem runInject_append_ok {M P R A : Type} (m : M) (p : P) :
    ∀ (pre l : List (Injector M P R A)),
      (∀ j ∈ pre, j.inject m p = .ok ()) →
      runInject (pre ++ l) m p = runInject l m p := by
  intro pre
  induction pre with
  | nil => intro l _; rfl
  | cons i rest ih =>
    intro l h
    have hi : i.inject m p = .ok () := h i (by simp)
    simp only [List.cons_append, runInject, hi]
    exact ih l fun j hj => h j (by simp [hj])

/-- A list of injectors that all succeed on `inject` yields `Ok(())`. -/
theorem runInject_all_ok {M P R A : Type} (m : M) (p : P)
    (l : List (Injector M P R A)) (h : ∀ j ∈ l, j.inject m p = .ok ()) :
    runInject l m p = .ok () := by
  have := runInject_append_ok m p l [] h
  simpa using this

/-- Claim C3: `MultiInjector::inject` walks the chain in list order and stops
at the first element returning `Err`; that `Err` is the chain's result and
the elements after it are not invoked (the result does not depend on them);
when every element returns `Ok` the chain returns `Ok(())`. -/
theorem multiInjector_inject_first_error {M P R A : Type} (m : M) (p : P) :
    (∀ mi : MultiInjector M P R A,
        (∀ i ∈ mi.injectors, i.inject m p = .ok ()) → mi.inject m p = .ok ())
    ∧ ∀ (pre : List (Injector M P R A)) (i : Injector M P R A)
        (post post' : List (Injector M P R A)) (e : Errno),
        (∀ j ∈ pre, j.inject m p = .ok ()) → i.inject m p = .error e →
        (MultiInjector.mk (pre ++ i :: post)).inject m p = .error e
        ∧ (MultiInjector.mk (pre ++ i :: post)).inject m p
            = (MultiInjector.mk (pre ++ i :: post')).inject m p := by
  constructor
  · intro mi h
    exact runInject_all_ok m p mi.injectors h
  · intro pre i post post' e hpre hi
    have h1 : (MultiInjector.mk (pre ++ i :: post)).inject m p = .error e := by
      show runInject (pre ++ i :: post) m p = .error e
      rw [runInject_append_ok m p pre (i :: post) hpre]
      simp [runInject, hi]
    have h2 : (MultiInjector.mk (pre ++ i :: post')).inject m p = .error e := by
      show runInject (pre ++ i :: post') m p = .error e
      rw [runInject_append_ok m p pre (i :: post') hpre]
      simp [runInject, hi]
    exact ⟨h1, h1.trans h2.symm⟩

/-- Witness for C3 on a concrete chain: the element after the failing one is
irrelevant to the result, which is the first error. -/
theorem multiInjector_inject_first_error_witness :
    (MultiInjector.mk ([okInjectInjector] ++ errInjectInjector :: [])).inject () () = .error 13
    ∧ (MultiInjector.mk ([okInjectInjector] ++ errInjectInjector :: [])).inject () ()
        = (MultiInjector.mk
            ([okInjectInjector] ++ errInjectInjector :: [incReplyInjector])).inject () () :=
  (multiInjector_inject_first_error () ()).2 [okInjectInjector] errInjectInjector
    [] [incReplyInjector] 13
    (fun j hj => by
      simp only [List.mem_singleton] at hj
      subst hj
      rfl)
    rfl

/-- Claim C4: the chain with an empty injector list is an identity: `inject`
returns `Ok(())`, `inject_reply` returns `Ok(())` leaving the reply
unchanged, and `inject_attr` leaves the attribute unchanged, so the reply is
the uninjected passthrough reply. -/
theorem multiInjector_empty_identity {M P R A : Type} (m : M) (p : P) (r : R) (a : A) :
    (emptyMultiInjector M P R A).inject m p = .ok ()
    ∧ (emptyMultiInjector M P R A).inject_reply m p r = (.ok (), r)
    ∧ (emptyMultiInjector M P R A).inject_attr a p = a :=
  ⟨rfl, rfl, rfl⟩

/-- A prefix of injectors whose `inject_reply` always succeeds contributes its
mutations and the loop continues after it with the accumulated reply. -/
theorem runInjectReply_append_ok {M P R A : Type} (m : M) (p : P) :
    ∀ (pre l : List (Injector M P R A)) (r : R),
      (∀ j ∈ pre, ∀ s, (j.inject_reply m p s).1 = .ok ()) →
      runInjectReply (pre ++ l) m p r = runInjectReply l m p (replyFold pre m p r) := by
  intro pre
  induction pre with
  | nil => intro l r _; rfl
  | cons i rest ih =>
    intro l r h
    have hi : (i.inject_reply m p r).1 = .ok () := h i (by simp) r
    cases hx : i.inject_reply m p r with
    | mk fst snd =>
      rw [hx] at hi
      simp only at hi
      subst hi
      have h1 : runInjectReply ((i :: rest) ++ l) m p r = runInjectReply (rest ++ l) m p snd := by
        simp [runInjectReply, hx]
      have h2 : replyFold (i :: rest) m p r = replyFold rest m p snd := by
        simp [replyFold, hx]
      rw [h1, h2]
      exact ih l snd fun j hj s => h j (by simp [hj]) s

/-- Claim C1 (amended): `MultiInjector::inject_reply` invokes the elements in
list order only up to and including the first element returning `Err`; that
error is the chain's result, the reply carries the mutations accumulated in
list order up to and including the failing element, and the elements after it
are not invoked (the result does not depend on them).  When every element
returns `Ok`, every element is invoked and the mutations accumulate in list
order. -/
theorem multiInjector_inject_reply_stops_at_first_error {M P R A : Type}
    (m : M) (p : P) (r : R) :
    (∀ mi : MultiInjector M P R A,
        (∀ i ∈ mi.injectors, ∀ s, (i.inject_reply m p s).1 = .ok ()) →
        mi.inject_reply m p r = (.ok (), replyFold mi.injectors m p r))
    ∧ ∀ (pre : List (Injector M P R A)) (i : Injector M P R A)
        (post post' : List (Injector M P R A)) (e : Errno),
        (∀ j ∈ pre, ∀ s, (j.inject_reply m p s).1 = .ok ()) →
        (i.inject_reply m p (replyFold pre m p r)).1 = .error e →
        (MultiInjector.mk (pre ++ i :: post)).inject_reply m p r
            = (.error e, (i.inject_reply m p (replyFold pre m p r)).2)
        ∧ (MultiInjector.mk (pre ++ i :: post)).inject_reply m p r
            = (MultiInjector.mk (pre ++ i :: post')).inject_reply m p r := by
  have herr : ∀ (pre post : List (Injector M P R A)) (i : Injector M P R A) (e : Errno),
      (∀ j ∈ pre, ∀ s, (j.inject_reply m p s).1 = .ok ()) →
      (i.inject_reply m p (replyFold pre m p r)).1 = .error e →
      (MultiInjector.mk (pre ++ i :: post)).inject_reply m p r
          = (.error e, (i.inject_reply m p (replyFold pre m p r)).2) := by
    intro pre post i e hpre hi
    show runInjectReply (pre ++ i :: post) m p r = _
    rw [runInjectReply_append_ok m p pre (i :: post) r hpre]
    cases hx : i.inject_reply m p (replyFold pre m p r) with
    | mk fst snd =>
      rw [hx] at hi
      simp only at hi
      subst hi
      simp [runInjectReply, hx]
  constructor
  · intro mi h
    show runInjectReply mi.injectors m p r = _
    have := runInjectReply_append_ok m p mi.injectors [] r h
    simpa using this
  · intro pre i post post' e hpre hi
    have h1 := herr pre post i e hpre hi
    have h2 := herr pre post' i e hpre hi
    exact ⟨h1, h1.trans h2.symm⟩

/-- Counterexample to claim C1 as stated: in the chain
`[errReplyInjector, incReplyInjector]` the first element's `inject_reply`
fails, and the second element is never invoked — the chain result keeps the
untouched reply `0`, not the reply `1` that accumulating every element's
mutation would produce. -/
theorem multiInjector_inject_reply_cex :
    errThenIncChain.inject_reply () () 0 = (.error 5, 0)
    ∧ replyFold errThenIncChain.injectors () () 0 = 1
    ∧ (errThenIncChain.inject_reply () () 0).2 ≠ replyFold errThenIncChain.injectors () () 0 := by
  refine ⟨rfl, rfl, ?_⟩
  decide

/-- Witness for the amended C1 on a concrete chain: the failing element stops
the walk, and the element after it does not mutate the reply. -/
theorem multiInjector_inject_reply_stops_witness :
    (MultiInjector.mk ([] ++ errReplyInjector :: [incReplyInjector])).inject_reply () () 0
        = (.error 5,
            (errReplyInjector.inject_reply () ()
              (replyFold ([] : List (Injector Unit Unit Nat Unit)) () () 0)).2)
    ∧ (MultiInjector.mk ([] ++ errReplyInjector :: [incReplyInjector])).inject_reply () () 0
        = (MultiInjector.mk ([] ++ errReplyInjector :: [])).inject_reply () () 0 :=
  (multiInjector_inject_reply_stops_at_first_error () () 0).2 [] errReplyInjector
    [incReplyInjector] [] 5 (fun j hj => by simp at hj) rfl

/-- The injector built by `buildOne` has the kind of its configuration record. -/
theorem buildOne_ok_kind {E FC LC AC FI LI AI : Type}
    (bf : FC → Except E FI) (bl : LC → Except E LI) (ba : AC → Except E AI)
    (c : InjectorConfig FC LC AC) (i : BuiltInjector FI LI AI)
    (h : buildOne bf bl ba c = .ok i) : i.kind = c.kind := by
  cases c with
  | fault cf =>
    simp only [buildOne] at h
    cases hb : bf cf with
    | error e => rw [hb] at h; simp [Except.map] at h
    | ok v =>
      rw [hb] at h
      simp [Except.map] at h
      subst h
      rfl
  | latency cl =>
    simp only [buildOne] at h
    cases hb : bl cl with
    | error e => rw [hb] at h; simp [Except.map] at h
    | ok v =>
      rw [hb] at h
      simp [Except.map] at h
      subst h
      rfl
  | attrOverride ca =>
    simp only [buildOne] at h
    cases hb : ba ca with
    | error e => rw [hb] at h; simp [Except.map] at h
    | ok v =>
      rw [hb] at h
      simp [Except.map] at h
      subst h
      rfl

/-- A successful `MultiInjector::build` builds exactly one injector per
configuration record, pointwise in list order. -/
theorem build_ok_forall2 {E FC LC AC FI LI AI : Type}
    (bf : FC → Except E FI) (bl : LC → Except E LI) (ba : AC → Except E AI) :
    ∀ (conf : List (InjectorConfig FC LC AC)) (out : List (BuiltInjector FI LI AI)),
      MultiInjector.build bf bl ba conf = .ok out →
      List.Forall₂ (fun c i => buildOne bf bl ba c = .ok i) conf out := by
  intro conf
  induction conf with
  | nil =>
    intro out h
    simp only [MultiInjector.build] at h
    cases h
    exact List.Forall₂.nil
  | cons c rest ih =>
    intro out h
    simp only [MultiInjector.build] at h
    cases hb : buildOne bf bl ba c with
    | error e => rw [hb] at h; simp at h
    | ok i =>
      rw [hb] at h
      cases hr : MultiInjector.build bf bl ba rest with
      | error e => rw [hr] at h; simp at h
      | ok rs =>
        rw [hr] at h
        simp at h
        subst h
        exact List.Forall₂.cons hb (ih rs hr)

/-- When every record before some failing record builds successfully, the
first build failure is the result of the whole `MultiInjector::build`. -/
theorem build_first_error {E FC LC AC FI LI AI : Type}
    (bf : FC → Except E FI) (bl : LC → Except E LI) (ba : AC → Except E AI) :
    ∀ (pre : List (InjectorConfig FC LC AC)) (c : InjectorConfig FC LC AC)
      (post : List (InjectorConfig FC LC AC)) (e : E),
      (∀ j ∈ pre, ∃ i, buildOne bf bl ba j = .ok i) →
      buildOne bf bl ba c = .error e →
      MultiInjector.build bf bl ba (pre ++ c :: post) = .error e := by
  intro pre
  induction pre with
  | nil =>
    intro c post e _ hc
    simp [MultiInjector.build, hc]
  | cons j rest ih =>
    intro c post e hpre hc
    obtain ⟨i, hj⟩ := hpre j (by simp)
    have hrest := ih c post e (fun j' hj' => hpre j' (by simp [hj'])) hc
    simp [MultiInjector.build, hj, hrest]

/-- Claim C9: `MultiInjector::build` yields exactly one injector per
configuration record, in record order, each record's variant mapped to the
matching injector kind (`Fault → FaultInjector`, `Latency →
LatencyInjector`, `AttrOverride → AttrOverrideInjector`); if building any
single injector fails (every earlier record building fine), that error is
returned and no chain is produced. -/
theorem multiInjector_build_ordered_kinds {E FC LC AC FI LI AI : Type}
    (bf : FC → Except E FI) (bl : LC → Except E LI) (ba : AC → Except E AI) :
    (∀ fc fi, bf fc = .ok fi →
        buildOne bf bl ba (InjectorConfig.fault fc) = .ok (BuiltInjector.fault fi))
    ∧ (∀ lc li, bl lc = .ok li →
        buildOne bf bl ba (InjectorConfig.latency lc) = .ok (BuiltInjector.latency li))
    ∧ (∀ ac ai, ba ac = .ok ai →
        buildOne bf bl ba (InjectorConfig.attrOverride ac) = .ok (BuiltInjector.attrOverride ai))
    ∧ (∀ (conf : List (InjectorConfig FC LC AC)) (out : List (BuiltInjector FI LI AI)),
        MultiInjector.build bf bl ba conf = .ok out →
        out.length = conf.length
        ∧ List.Forall₂
            (fun c i => buildOne bf bl ba c = .ok i
              ∧ BuiltInjector.kind i = InjectorConfig.kind c) conf out)
    ∧ ∀ (pre : List (InjectorConfig FC LC AC)) (c : InjectorConfig FC LC AC)
        (post : List (InjectorConfig FC LC AC)) (e : E),
        (∀ j ∈ pre, ∃ i, buildOne bf bl ba j = .ok i) →
        buildOne bf bl ba c = .error e →
        MultiInjector.build bf bl ba (pre ++ c :: post) = .error e := by
  refine ⟨?_, ?_, ?_, ?_, build_first_error bf bl ba⟩
  · intro fc fi h
    simp [buildOne, h, Except.map]
  · intro lc li h
    simp [buildOne, h, Except.map]
  · intro ac ai h
    simp [buildOne, h, Except.map]
  · intro conf out h
    have h2 := build_ok_forall2 bf bl ba conf out h
    exact ⟨h2.length_eq.symm,
      h2.imp fun c i hci => ⟨hci, buildOne_ok_kind bf bl ba c i hci⟩⟩

/-- Witness for C9: on a concrete two-record configuration the build succeeds
with one injector per record, and `buildOne` maps the `Fault` variant to a
`FaultInjector`. -/
theorem multiInjector_build_ordered_kinds_witness :
    buildOne wbf wbl wba (InjectorConfig.fault 1) = .ok (BuiltInjector.fault 101)
    ∧ ([BuiltInjector.fault 101, BuiltInjector.latency 202]
          : List (BuiltInjector Nat Nat Nat)).length
        = ([InjectorConfig.fault 1, InjectorConfig.latency 2]
            : List (InjectorConfig Nat Nat Nat)).length :=
  ⟨(multiInjector_build_ordered_kinds wbf wbl wba).1 1 101 rfl,
    ((multiInjector_build_ordered_kinds wbf wbl wba).2.2.2.1
      [InjectorConfig.fault 1, InjectorConfig.latency 2]
      [BuiltInjector.fault 101, BuiltInjector.latency 202] rfl).1⟩

/-- When `recover_mount` fails on every attempt, no amount of fuel makes the
`resume` retry loop stop. -/
theorem resumeLoopFuel_none_of_allfail (recover : Nat → Except UmountError Unit)
    (h : ∀ n, recover n ≠ .ok ()) :
    ∀ fuel attempt, resumeLoopFuel recover fuel attempt = none := by
  intro fuel
  induction fuel with
  | zero => intro attempt; rfl
  | succ f ih =>
    intro attempt
    cases hr : recover attempt with
    | ok u => exact absurd (by cases u; exact hr) (h attempt)
    | error e => simp [resumeLoopFuel, hr, ih (attempt + 1)]

/-- The attempt index the `resume` retry loop stops at is a successful one. -/
theorem resumeLoopFuel_some_ok (recover : Nat → Except UmountError Unit) :
    ∀ fuel attempt k, resumeLoopFuel recover fuel attempt = some k →
      recover k = .ok () := by
  intro fuel
  induction fuel with
  | zero => intro attempt k h; exact absurd h (by simp [resumeLoopFuel])
  | succ f ih =>
    intro attempt k h
    cases hr : recover attempt with
    | ok u =>
      rw [resumeLoopFuel, hr] at h
      simp at h
      subst h
      cases u
      exact hr
    | error e =>
      rw [resumeLoopFuel, hr] at h
      exact ih (attempt + 1) k h

/-- If some attempt within the fuel window succeeds, the `resume` retry loop
stops. -/
theorem resumeLoopFuel_reaches (recover : Nat → Except UmountError Unit) :
    ∀ fuel attempt j, attempt ≤ j → j < attempt + fuel → recover j = .ok () →
      (resumeLoopFuel recover fuel attempt).isSome := by
  intro fuel
  induction fuel with
  | zero => intro attempt j h1 h2 _; omega
  | succ f ih =>
    intro attempt j h1 h2 hj
    cases hr : recover attempt with
    | ok u => simp [resumeLoopFuel, hr]
    | error e =>
      have hne : attempt ≠ j := by
        intro heq
        rw [heq, hj] at hr
        exact Except.noConfusion hr
      have := ih (attempt + 1) j (by omega) (by omega) hj
      simpa [resumeLoopFuel, hr] using this

/-- The `resume` retry loop stops exactly at the first successful attempt. -/
theorem resumeLoopFuel_first_success (recover : Nat → Except UmountError Unit) :
    ∀ fuel attempt k, attempt ≤ k → k < attempt + fuel →
      (∀ j, attempt ≤ j → j < k → recover j ≠ .ok ()) → recover k = .ok () →
      resumeLoopFuel recover fuel attempt = some k := by
  intro fuel
  induction fuel with
  | zero => intro attempt k h1 h2 _ _; omega
  | succ f ih =>
    intro attempt k h1 h2 hbefore hk
    cases hr : recover attempt with
    | ok u =>
      have : attempt = k := by
        by_contra hne
        exact hbefore attempt (le_refl attempt) (by omega) (by cases u; exact hr)
      rw [resumeLoopFuel, hr, this]
    | error e =>
      have hne : attempt ≠ k := by
        intro heq
        rw [heq, hk] at hr
        exact Except.noConfusion hr
      rw [resumeLoopFuel, hr]
      exact ih (attempt + 1) k (by omega) (by omega)
        (fun j hj1 hj2 => hbefore j (by omega) hj2) hk

/-- Claim C2 (amended): in `resume` the unmount is retried on every
`recover_mount` error — `EBUSY` or any other — with no bound on the number
of attempts; the loop terminates exactly when some attempt succeeds, and
then it stops at the first successful attempt.  In particular `resume` does
not terminate when `recover_mount` fails on every attempt. -/
theorem resume_unmount_retry_unbounded (recover : Nat → Except UmountError Unit) :
    (resumeTerminates recover ↔ ∃ n, recover n = .ok ())
    ∧ ∀ k, (∀ j, j < k → recover j ≠ .ok ()) → recover k = .ok () →
        ∀ fuel, k < fuel → resumeLoopFuel recover fuel 0 = some k := by
  constructor
  · constructor
    · rintro ⟨fuel, hsome⟩
      obtain ⟨k, hk⟩ := Option.isSome_iff_exists.mp hsome
      exact ⟨k, resumeLoopFuel_some_ok recover fuel 0 k hk⟩
    · rintro ⟨n, hn⟩
      exact ⟨n + 1, resumeLoopFuel_reaches recover (n + 1) 0 n (Nat.zero_le n) (by omega) hn⟩
  · intro k hbefore hk fuel hfuel
    exact resumeLoopFuel_first_success recover fuel 0 k (Nat.zero_le k) (by omega)
      (fun j _ hj => hbefore j hj) hk

/-- Counterexample to claim C2 as stated: when `recover_mount` fails with
`EBUSY` on every attempt, the `resume` retry loop never terminates — there
is no bounded number of attempts after which `resume` gives up. -/
theorem resume_allfail_not_terminating_cex : ¬ resumeTerminates recoverAlwaysBusy := by
  rintro ⟨fuel, hsome⟩
  rw [resumeLoopFuel_none_of_allfail recoverAlwaysBusy
    (fun n => by simp [recoverAlwaysBusy]) fuel 0] at hsome
  simp at hsome

/-- Witness for the amended C2: with failures on attempts 0 and 1 and success
on attempt 2, the loop stops at attempt 2. -/
theorem resume_unmount_retry_unbounded_witness :
    resumeLoopFuel recoverBusyThenOk 5 0 = some 2 :=
  (resume_unmount_retry_unbounded recoverBusyThenOk).2 2
    (fun j hj h => by interval_cases j <;> simp [recoverBusyThenOk] at h)
    (by simp [recoverBusyThenOk]) 5 (by omega)

/-- Claim C5 (the code diverges here): whatever the outcomes of the fallible
calls, the trace of `main` installs the recovery handler for `SIGINT` and
`SIGTERM` but performs NO change of the `SIGCHLD` disposition — the
`signal(SIGCHLD, SigIgn)` call is commented out in `src/main.rs`, although
the adjacent comment says "ignore dying children". -/
theorem main_sigchld_not_ignored (env : InjectEnv) :
    (∀ d : SigDisposition, Step.setSignal SigName.SIGCHLD d ∉ mainTrace env)
    ∧ Step.setSignal SigName.SIGINT SigDisposition.handlerRecovery ∈ mainTrace env
    ∧ Step.setSignal SigName.SIGTERM SigDisposition.handlerRecovery ∈ mainTrace env := by
  obtain ⟨c, f, ns, w, ci, mt⟩ := env
  refine ⟨fun d => ?_, ?_, ?_⟩ <;>
    cases c <;> cases f <;> cases ns <;> cases w <;> cases ci <;> cases mt <;>
      simp [mainTrace, injectRun, mainPrefixSteps]

/-- Claim C7: `runResume` appears in a trace of `main` only when every
fallible call of `inject` succeeded, and then the trace is the unique all-ok
trace, in which the pipe is created and its write end stored before the
handlers are installed, injection completes before the blocking read of the
signal pipe, and the read precedes `resume`; the read and `resume` each
happen once.  The signal handler performs exactly one write of the fixed
6-byte token `SIGNAL`. -/
theorem main_resume_only_after_signal (env : InjectEnv) :
    (Step.runResume ∈ mainTrace env →
        mainTrace env = mainTraceAllOk ∧ (injectRun env).1 = .ok ())
    ∧ mainTraceAllOk.indexOf Step.createPipe < mainTraceAllOk.indexOf Step.storePipeWriter
    ∧ mainTraceAllOk.indexOf Step.storePipeWriter
        < mainTraceAllOk.indexOf (Step.setSignal SigName.SIGINT SigDisposition.handlerRecovery)
    ∧ mainTraceAllOk.indexOf Step.enableInjection < mainTraceAllOk.indexOf Step.readSignalPipe
    ∧ mainTraceAllOk.indexOf Step.readSignalPipe < mainTraceAllOk.indexOf Step.runResume
    ∧ mainTraceAllOk.count Step.readSignalPipe = 1
    ∧ mainTraceAllOk.count Step.runResume = 1
    ∧ signal_handler = [PipeEvent.write SIGNAL_MSG]
    ∧ SIGNAL_MSG.length = 6 := by
  refine ⟨?_, by decide, by decide, by decide, by decide, by decide, by decide, rfl, rfl⟩
  obtain ⟨c, f, ns, w, ci, mt⟩ := env
  cases c <;> cases f <;> cases ns <;> cases w <;> cases ci <;> cases mt <;>
    simp [mainTrace, injectRun, mainPrefixSteps, mainTraceAllOk]

/-- Witness for C7: in the all-ok environment the trace of `main` is the
all-ok trace and `inject` returned `Ok`. -/
theorem main_resume_only_after_signal_witness :
    mainTrace envAllOk = mainTraceAllOk ∧ (injectRun envAllOk).1 = .ok () :=
  (main_resume_only_after_signal envAllOk).1 (by decide)

/-- Claim C8: the injector configuration is parsed from stdin exactly once,
as the first step of `inject`; when parsing fails, `inject` returns that
error with neither `MountInjector::create_injection` nor `mount` invoked,
the error propagates through `main`, and the process exits non-zero. -/
theorem inject_parse_failure_before_mount (env : InjectEnv) :
    ((injectRun env).2.head? = some Step.parseConfig
        ∧ (injectRun env).2.count Step.parseConfig = 1)
    ∧ ∀ e : InjectError, env.stdin_config = .error e →
        injectRun env = (.error e, [Step.parseConfig])
        ∧ Step.createInjection ∉ (injectRun env).2
        ∧ Step.mountStep ∉ (injectRun env).2
        ∧ mainResult env = .error e
        ∧ processExitCode env ≠ 0 := by
  obtain ⟨c, f, ns, w, ci, mt⟩ := env
  constructor
  · cases c <;> cases f <;> cases ns <;> cases w <;> cases ci <;> cases mt <;>
      simp [injectRun]
  · intro e he
    simp only at he
    subst he
    simp [injectRun, mainResult, processExitCode]

/-- Witness for C8: with a failing stdin parse, `inject` performs only the
parse step and the process exit code is non-zero. -/
theorem inject_parse_failure_before_mount_witness :
    injectRun envParseFail = (.error 7, [Step.parseConfig])
    ∧ processExitCode envParseFail ≠ 0 := by
  have h := (inject_parse_failure_before_mount envParseFail).2 7 rfl
  exact ⟨h.1, h.2.2.2.2⟩

/-- Claim C6: the `inject` phase prepares the replacer with the identity
mapping `p → p` of the canonicalized path (a descriptor snapshot), while the
`resume` phase prepares it with `p → new_path` where `new_path` is the
encoded sibling `encode_path` derives deterministically from the
canonicalized path. -/
theorem replacer_mapping_inject_identity_resume_encoded
    (canonicalize : String → Except InjectError String) (path c : String)
    (hc : canonicalize path = .ok c) :
    injectReplacerArgs canonicalize path = .ok (c, c)
    ∧ ∀ orig newPath, encode_path c = .ok (orig, newPath) →
        resumeReplacerArgs canonicalize path = .ok (c, newPath) := by
  constructor
  · simp [injectReplacerArgs, hc]
  · intro orig newPath he
    simp [resumeReplacerArgs, hc, he]

/-- Witness for C6 on a concrete path: the inject phase maps the path to
itself; the resume phase maps it to its encoded sibling. -/
theorem replacer_mapping_witness :
    injectReplacerArgs (fun s => .ok s) "/mnt/target" = .ok ("/mnt/target", "/mnt/target")
    ∧ resumeReplacerArgs (fun s => .ok s) "/mnt/target"
        = .ok ("/mnt/target", "/mnt/target.__toda__") := by
  have h := replacer_mapping_inject_identity_resume_encoded
    (fun s => .ok s) "/mnt/target" "/mnt/target" rfl
  exact ⟨h.1, h.2 "/mnt/target" "/mnt/target.__toda__" (by simp [encode_path])⟩

/-- Claim C10: `forget` is the only `Filesystem` method the dispatcher
schedules without a reply sink — its spawned task invokes the
implementation's `forget` and sends nothing back; every other method that
spawns a task has exactly one single-shot reply sink, and a task scheduled
through `AsyncFileSystem::spawn` delivers exactly one reply to it, carrying
the future's result. -/
theorem forget_only_op_without_reply_sink :
    (∀ op : FuseOp, dispatchKind op = DispatchKind.spawnNoSink ↔ op = FuseOp.forget)
    ∧ (∀ op : FuseOp, (spawnsTask op = true ∧ sinkCount op = 0) ↔ op = FuseOp.forget)
    ∧ (∀ op : FuseOp, spawnsTask op = true → op ≠ FuseOp.forget → sinkCount op = 1)
    ∧ ∀ (V : Type) (f : Except Errno V),
        AsyncFileSystem.spawn f = [ReplyEvent.reply f]
        ∧ (AsyncFileSystem.spawn f).length = 1 :=
  ⟨by decide, by decide, by decide, fun V f => ⟨rfl, rfl⟩⟩

/-- Witness for C10: `lookup` spawns a task and has exactly one reply sink. -/
theorem forget_only_op_without_reply_sink_witness :
    sinkCount FuseOp.lookup = 1 :=
  forget_only_op_without_reply_sink.2.2.1 FuseOp.lookup rfl (by decide)

end Toda
